import Mathlib

/-!
Shallow embedding of the virtual-classroom console program (src/Main.cpp).

Modelling conventions:
* A C++ std::string is modelled as a list of characters (`Str := List Char`);
  `std::string::size()` becomes `List.length`.  All the strings the claims
  quantify over are ASCII, where byte length and character length agree.
* ANSI colour/emphasis escape sequences (COLOR_BOLD, COLOR_GRAY, COLOR_RESET)
  are zero-width terminal directives; every claim measures printable width
  ignoring them, so rendered rows are modelled as their visible characters.
* `std::string(count, ch)` where `count` comes from unsigned (size_t)
  subtraction: when the subtraction underflows, the resulting count exceeds
  `std::string::max_size()` and the constructor throws `std::length_error`
  (for `int` intermediaries the value becomes negative and converts back to a
  huge `size_t`, with the same effect).  We model the whole underflow-then-throw
  path with `checkedSub`, which returns `none` exactly when the C++ program
  would throw; renderers consequently return `Option`.
* File I/O: a file is its contents (`Str`); an unopenable file is `none`.
  `std::getline` semantics are modelled by `cppGetLines`.
-/

namespace VClass

/-- A C++ `std::string`, modelled as its character sequence. -/
abbrev Str := List Char

/-- The whitespace set used by both `Trim` helpers in the source:
`" \t\n\r\f\v"`. -/
def isWS (c : Char) : Bool :=
  c = ' ' || c = '\t' || c = '\n' || c = '\r' || c = '\x0c' || c = '\x0b'

/-- `Model::Trim` / `View::Trim` (src/Main.cpp lines 114-118, 269-273):
erase everything after the last non-whitespace character, then erase the
leading run of whitespace. -/
def Trim (s : Str) : Str :=
  ((s.reverse.dropWhile isWS).reverse).dropWhile isWS

/-- Accumulator loop behind `std::getline` applied repeatedly: characters are
consumed until a newline (consumed, not stored) or end of input; a final
`getline` call that reads no characters at end of input fails and does not
produce a line. -/
def linesAux : Str → List Char → List Str
  | [], acc => [acc.reverse]
  | c :: rest, acc =>
    if c = '\n' then
      match rest with
      | [] => [acc.reverse]
      | _ :: _ => acc.reverse :: linesAux rest []
    else
      linesAux rest (c :: acc)

/-- The sequence of lines `while (std::getline(fin, line))` yields on a file
with the given contents. -/
def cppGetLines (s : Str) : List Str :=
  match s with
  | [] => []
  | c :: rest => linesAux (c :: rest) []

/-- `Model`: the two in-memory vectors (src/Main.cpp lines 70-72).  The
backing files are threaded explicitly where a claim needs them. -/
structure Model where
  classes : List Str
  students : List Str
deriving DecidableEq

/-- `Model::Exists` (src/Main.cpp lines 74-76): `std::find` over the vector,
i.e. exact case-sensitive string equality. -/
def existsIn (vec : List Str) (val : Str) : Bool :=
  vec.contains val

/-- `Model::AddClass` (src/Main.cpp lines 48-55): append iff not already
present; returns the success flag together with the updated model.  (The
`SaveData()` call inside touches only the backing files, not the vectors.) -/
def AddClass (m : Model) (className : Str) : Bool × Model :=
  if existsIn m.classes className then (false, m)
  else (true, { m with classes := m.classes ++ [className] })

/-- `Model::AddStudent` (src/Main.cpp lines 58-65). -/
def AddStudent (m : Model) (studentName : Str) : Bool × Model :=
  if existsIn m.students studentName then (false, m)
  else (true, { m with students := m.students ++ [studentName] })

/-- `Model::GetClasses` (src/Main.cpp line 67). -/
def GetClasses (m : Model) : List Str := m.classes

/-- `Model::GetStudents` (src/Main.cpp line 68). -/
def GetStudents (m : Model) : List Str := m.students

/-- One file of `Model::SaveData` (src/Main.cpp lines 101-111): every entry
followed by a newline, written from scratch (`std::ios::trunc`). -/
def saveList (l : List Str) : Str :=
  (l.map (fun e => e ++ ['\n'])).flatten

/-- `Model::SaveData`: contents written to `classes.txt` and `students.txt`. -/
def SaveData (m : Model) : Str × Str :=
  (saveList m.classes, saveList m.students)

/-- Loop body of `Model::LoadData` for one line: trim, keep if non-empty. -/
def loadStep (acc : List Str) (line : Str) : List Str :=
  let t := Trim line
  if t.isEmpty then acc else acc ++ [t]

/-- The `while (std::getline...)` loop of `Model::LoadData` over one file. -/
def loadLines (contents : Str) : List Str :=
  (cppGetLines contents).foldl loadStep []

/-- `Model::LoadData` (src/Main.cpp lines 78-99): each source is read if it
can be opened (`is_open`), otherwise silently skipped, leaving the
corresponding vector empty.  `none` models an unopenable file. -/
def LoadData (classesFile studentsFile : Option Str) : Model :=
  { classes := match classesFile with
      | some c => loadLines c
      | none => []
    students := match studentsFile with
      | some s => loadLines s
      | none => [] }

/-- Folding a sequence of `AddClass` calls over the model (the shape of
repeated menu-driven additions). -/
def addClasses (m : Model) (names : List Str) : Model :=
  names.foldl (fun m n => (AddClass m n).2) m

/-! ### View: the card renderer -/

/-- The card width hard-coded in `View::DisplayCardsGrid` (src/Main.cpp
line 194) and defaulted in `View::DisplayCard` (line 167). -/
def cardWidth : Nat := 50

/-- `std::string(n, ' ')` for an in-range count. -/
def sp (n : Nat) : Str := List.replicate n ' '

/-- `a - b` as computed in `size_t` and then used as a `std::string` repeat
count: fine when `b ≤ a`; on underflow the count is astronomically large (or,
routed through an `int`, negative and converted back to a huge `size_t`), so
the `std::string` constructor throws `std::length_error`, modelled `none`. -/
def checkedSub (a b : Nat) : Option Nat :=
  if b ≤ a then some (a - b) else none

/-- Top border `"╭" + std::string(cardWidth-2, '_') + "╮"` (line 208). -/
def topBorder : Str := '╭' :: (List.replicate (cardWidth - 2) '_' ++ ['╮'])

/-- Bottom border `"╰" + std::string(cardWidth-2, '_') + "╯"` (line 229). -/
def bottomBorder : Str := '╰' :: (List.replicate (cardWidth - 2) '_' ++ ['╯'])

/-- Blank interior row `"│" + std::string(cardWidth-2, ' ') + "│"`
(lines 213, 225). -/
def blankRow : Str := '│' :: (sp (cardWidth - 2) ++ ['│'])

/-- Title row of `View::DisplayCardsGrid` (lines 209-212):
`titlePadLeft = (cardWidth - 2 - title.size()) / 2`,
`titlePadRight = cardWidth - 2 - title.size() - titlePadLeft`; the visible
characters of the emphasized title line. -/
def titleRow (title : Str) : Option Str :=
  match checkedSub (cardWidth - 2) title.length with
  | none => none
  | some padTotal =>
    let titlePadLeft := padTotal / 2
    let titlePadRight := padTotal - titlePadLeft
    some ('│' :: (sp titlePadLeft ++ title ++ sp titlePadRight ++ ['│']))

/-- One supplied body line of `View::DisplayCardsGrid` (lines 218-223):
truncate to `cardWidth - 6` characters plus `"..."` when longer than
`cardWidth - 3`, then pad on the right to the card width. -/
def gridBodyRow (line : Str) : Str :=
  let content :=
    if line.length > cardWidth - 3 then line.take (cardWidth - 6) ++ ['.', '.', '.']
    else line
  '│' :: ' ' :: (content ++ sp (cardWidth - 3 - content.length) ++ ['│'])

/-- The fixed 3-row body slot of `View::DisplayCardsGrid` (lines 216-227):
row `ln` shows `card.second[ln]` when supplied, otherwise a blank interior
row. -/
def gridBodySlot (body : List Str) : List Str :=
  (List.range 3).map (fun ln =>
    match body.get? ln with
    | some line => gridBodyRow line
    | none => blankRow)

/-- The 7 rows `lines[0] .. lines[6]` that `View::DisplayCardsGrid` composes
for one card (lines 202-230). -/
def gridCardRows (card : Str × List Str) : Option (List Str) :=
  match titleRow card.1 with
  | none => none
  | some t => some ([topBorder, t, blankRow] ++ gridBodySlot card.2 ++ [bottomBorder])

/-- Printing one row index across the cards of a group (lines 233-239): each
row of each card, with the fixed 4-space gutter after every card but the
last. -/
def joinRow : List Str → Str
  | [] => []
  | [r] => r
  | r :: rest => r ++ sp 4 ++ joinRow rest

/-- The 7 printed lines of one group: for `lineNum = 0..6`, the rows of the
group
at that index joined side by side. -/
def sideBySide (rowss : List (List Str)) : List Str :=
  (List.range 7).map (fun lineNum => joinRow (rowss.map (fun rows => rows.getD lineNum [])))

/-- `View::DisplayCardsGrid` (src/Main.cpp lines 192-243): cards taken two at
a time in input order; each group prints its 7 side-by-side lines followed by
one empty line.  A thrown `std::length_error` while composing any card aborts
the whole call (`none`). -/
def DisplayCardsGrid (cards : List (Str × List Str)) : Option (List Str) :=
  match cards with
  | [] => some []
  | [c] =>
    match gridCardRows c with
    | none => none
    | some r => some (sideBySide [r] ++ [[]])
  | c1 :: c2 :: rest =>
    match gridCardRows c1, gridCardRows c2, DisplayCardsGrid rest with
    | some r1, some r2, some tail => some (sideBySide [r1, r2] ++ [[]] ++ tail)
    | _, _, _ => none

/-- One content row of `View::DisplayCard` (lines 182-186): no truncation;
`padding = cardWidth - 3 - line.size()` is clamped to zero when negative
(`padding > 0 ? padding : 0`), which is exactly truncated `Nat` subtraction. -/
def displayCardBodyRow (line : Str) : Str :=
  '│' :: ' ' :: (line ++ sp (cardWidth - 3 - line.length) ++ ['│'])

/-- `View::DisplayCard` (src/Main.cpp lines 167-189) at the default width:
top border, centred title (left pad `(cardWidth-2-size)/2`, right pad
`(cardWidth-2-size+1)/2`), one blank row, one row per supplied body line
(however many there are), bottom border.  Visible characters only. -/
def DisplayCard (title : Str) (lines : List Str) : Option (List Str) :=
  match checkedSub (cardWidth - 2) title.length with
  | none => none
  | some padTotal =>
    some ([topBorder,
           '│' :: (sp (padTotal / 2) ++ title ++ sp ((padTotal + 1) / 2) ++ ['│']),
           blankRow]
          ++ lines.map displayCardBodyRow ++ [bottomBorder])

/-! ### Helper lemmas -/

theorem existsIn_false_iff (vec : List Str) (val : Str) :
    existsIn vec val = false ↔ val ∉ vec := by
  simp [existsIn]

theorem existsIn_true_iff (vec : List Str) (val : Str) :
    existsIn vec val = true ↔ val ∈ vec := by
  simp [existsIn]

theorem addClasses_app (m : Model) (names : List Str)
    (hdisj : ∀ n ∈ names, n ∉ m.classes) (hnd : names.Nodup) :
    (addClasses m names).classes = m.classes ++ names ∧
    (addClasses m names).students = m.students := by
  induction names generalizing m with
  | nil => simp [addClasses]
  | cons n ns ih =>
    have hn : existsIn m.classes n = false :=
      (existsIn_false_iff _ _).mpr (hdisj n (List.mem_cons_self n ns))
    have hstep : (AddClass m n).2 = { m with classes := m.classes ++ [n] } := by
      simp [AddClass, hn]
    have hrest : ∀ x ∈ ns, x ∉ (m.classes ++ [n]) := by
      intro x hx
      simp only [List.mem_append, List.mem_singleton]
      rintro (hmem | rfl)
      · exact hdisj x (List.mem_cons_of_mem _ hx) hmem
      · exact (List.nodup_cons.mp hnd).1 hx
    have := ih { m with classes := m.classes ++ [n] } hrest (List.nodup_cons.mp hnd).2
    simpa [addClasses, hstep, List.append_assoc] using this

theorem loadStep_foldl (lines : List Str) : ∀ acc : List Str,
    lines.foldl loadStep acc =
      acc ++ (lines.map Trim).filter (fun l => !l.isEmpty) := by
  induction lines with
  | nil => intro acc; simp
  | cons l ls ih =>
    intro acc
    by_cases h : (Trim l).isEmpty
    · simp [loadStep, h, ih]
    · simp [loadStep, h, ih, List.append_assoc]

theorem loadLines_eq (contents : Str) :
    loadLines contents =
      ((cppGetLines contents).map Trim).filter (fun l => !l.isEmpty) := by
  simpa [loadLines] using loadStep_foldl (cppGetLines contents) []

theorem linesAux_append (e : Str) (he : ('\n') ∉ e) (s : Str) : ∀ acc : List Char,
    linesAux (e ++ '\n' :: s) acc =
      if s.isEmpty then [acc.reverse ++ e]
      else (acc.reverse ++ e) :: linesAux s [] := by
  induction e with
  | nil =>
    intro acc
    cases s <;> simp [linesAux]
  | cons c e ih =>
    intro acc
    have hc : ¬(c = '\n') := fun hcc => he (hcc ▸ List.mem_cons_self c e)
    have hstep : linesAux ((c :: e) ++ '\n' :: s) acc = linesAux (e ++ '\n' :: s) (c :: acc) := by
      simp [linesAux, hc]
    rw [hstep, ih (fun hm => he (List.mem_cons_of_mem _ hm)) (c :: acc)]
    simp [List.append_assoc]

theorem cppGetLines_ne (s : Str) (h : s ≠ []) : cppGetLines s = linesAux s [] := by
  cases s with
  | nil => exact absurd rfl h
  | cons c rest => rfl

theorem saveList_cons (e : Str) (t : List Str) :
    saveList (e :: t) = e ++ '\n' :: saveList t := by
  simp [saveList]

theorem saveList_ne_nil (e : Str) (t : List Str) : saveList (e :: t) ≠ [] := by
  rw [saveList_cons]
  cases e <;> simp

theorem cppGetLines_saveList (l : List Str) (h : ∀ e ∈ l, ('\n') ∉ e) :
    cppGetLines (saveList l) = l := by
  induction l with
  | nil => rfl
  | cons e t ih =>
    have he : ('\n') ∉ e := h e (List.mem_cons_self e t)
    have hne : saveList (e :: t) ≠ [] := saveList_ne_nil e t
    rw [cppGetLines_ne _ hne, saveList_cons,
        linesAux_append e he (saveList t) []]
    cases t with
    | nil => simp [saveList]
    | cons x t2 =>
      have hx : saveList (x :: t2) ≠ [] := saveList_ne_nil x t2
      have : (saveList (x :: t2)).isEmpty = false := by
        simpa [List.isEmpty_iff] using hx
      rw [this]
      simp only [List.nil_append, if_false, Bool.false_eq_true]
      rw [← cppGetLines_ne _ hx, ih (fun x hx2 => h x (List.mem_cons_of_mem _ hx2))]
      simp

theorem trim_filter_id (l : List Str) (h : ∀ e ∈ l, e ≠ [] ∧ Trim e = e) :
    ((l.map Trim).filter (fun x => !x.isEmpty)) = l := by
  induction l with
  | nil => rfl
  | cons e t ih =>
    obtain ⟨hne, htr⟩ := h e (List.mem_cons_self e t)
    have hemp : e.isEmpty = false := by simpa [List.isEmpty_iff] using hne
    simp [htr, hemp, ih (fun x hx => h x (List.mem_cons_of_mem _ hx))]

theorem loadLines_saveList (l : List Str)
    (h : ∀ e ∈ l, e ≠ [] ∧ Trim e = e ∧ ('\n') ∉ e) :
    loadLines (saveList l) = l := by
  rw [loadLines_eq, cppGetLines_saveList l (fun e he => (h e he).2.2)]
  exact trim_filter_id l (fun e he => ⟨(h e he).1, (h e he).2.1⟩)

/-! ### Claims about the Model -/

/-- C1: for every roster state and non-empty trimmed name, `AddClass`
(resp. `AddStudent`) returns `false` and leaves the model unchanged when the
name already occurs in the target list (exact case-sensitive match), and
otherwise appends it at the end of the target list and returns `true`; from a
state not containing the name, two successive `AddClass` calls yield
`(true, false)` and the classes list holds exactly one occurrence. -/
theorem claimC1 (m : Model) (n : Str) (hne : n ≠ []) (htrim : Trim n = n) :
    (existsIn m.classes n = true → AddClass m n = (false, m)) ∧
    (existsIn m.classes n = false →
      AddClass m n = (true, { m with classes := m.classes ++ [n] })) ∧
    (existsIn m.students n = true → AddStudent m n = (false, m)) ∧
    (existsIn m.students n = false →
      AddStudent m n = (true, { m with students := m.students ++ [n] })) ∧
    (existsIn m.classes n = false →
      (AddClass m n).1 = true ∧
      (AddClass (AddClass m n).2 n).1 = false ∧
      ((AddClass (AddClass m n).2 n).2).classes.count n = 1) := by
  refine ⟨?_, ?_, ?_, ?_, ?_⟩
  · intro h; simp [AddClass, h]
  · intro h; simp [AddClass, h]
  · intro h; simp [AddStudent, h]
  · intro h; simp [AddStudent, h]
  · intro h
    have hnotmem : n ∉ m.classes := (existsIn_false_iff _ _).mp h
    have h1 : AddClass m n = (true, { m with classes := m.classes ++ [n] }) := by
      simp [AddClass, h]
    have h2 : existsIn (m.classes ++ [n]) n = true := by
      rw [existsIn_true_iff]; simp
    refine ⟨by rw [h1], ?_, ?_⟩
    · rw [h1]; simp [AddClass, h2]
    · rw [h1]; simp [AddClass, h2, List.count_append]
      simpa [List.count_eq_zero] using hnotmem

/-- Witness for C1 on a concrete roster and name. -/
theorem claimC1_witness :
    ("Math".data ≠ ([] : Str)) ∧ Trim "Math".data = "Math".data ∧
    AddClass (Model.mk [] []) "Math".data = (true, Model.mk ["Math".data] []) ∧
    (AddClass (AddClass (Model.mk [] []) "Math".data).2 "Math".data).1 = false := by
  refine ⟨by decide, by decide, ?_, ?_⟩
  · exact (claimC1 (Model.mk [] []) "Math".data (by decide) (by decide)).2.1 (by decide)
  · exact ((claimC1 (Model.mk [] []) "Math".data (by decide) (by decide)).2.2.2.2
      (by decide)).2.1

/-- C4: adding any finite sequence of pairwise-distinct names with successive
`AddClass` calls, starting from an empty classes list, makes `GetClasses`
return exactly that sequence in the order the names were added. -/
theorem claimC4 (names : List Str) (students : List Str) (hnd : names.Nodup) :
    GetClasses (addClasses (Model.mk [] students) names) = names := by
  have := addClasses_app (Model.mk [] students) names (by simp) hnd
  simpa [GetClasses] using this.1

/-- Witness for C4 on a concrete distinct sequence. -/
theorem claimC4_witness :
    (["Algebra".data, "Biology".data, "Chemistry".data] : List Str).Nodup ∧
    GetClasses (addClasses (Model.mk [] [])
        ["Algebra".data, "Biology".data, "Chemistry".data]) =
      ["Algebra".data, "Biology".data, "Chemistry".data] :=
  ⟨by decide, claimC4 ["Algebra".data, "Biology".data, "Chemistry".data] [] (by decide)⟩

/-- C8: `LoadData` treats each source as newline-delimited entries, trims each
line, skips lines empty after trimming, appends the remaining lines in file
order, and treats an unopenable source (`none`) as an empty list; it is a
total function into `Model`, so no failure is surfaced. -/
theorem claimC8 (classesFile studentsFile : Option Str) :
    (LoadData classesFile studentsFile).classes =
      (match classesFile with
       | none => []
       | some c => ((cppGetLines c).map Trim).filter (fun l => !l.isEmpty)) ∧
    (LoadData classesFile studentsFile).students =
      (match studentsFile with
       | none => []
       | some s => ((cppGetLines s).map Trim).filter (fun l => !l.isEmpty)) := by
  cases classesFile <;> cases studentsFile <;>
    simp [LoadData, loadLines_eq]

/-- C3: saving a roster whose entries are non-empty, trimmed and free of
embedded newlines, and loading back from the same two sources, reproduces the
same ordered classes and students lists. -/
theorem claimC3 (m : Model)
    (hc : ∀ e ∈ m.classes, e ≠ [] ∧ Trim e = e ∧ ('\n') ∉ e)
    (hs : ∀ e ∈ m.students, e ≠ [] ∧ Trim e = e ∧ ('\n') ∉ e) :
    LoadData (some (SaveData m).1) (some (SaveData m).2) = m := by
  obtain ⟨cs, ss⟩ := m
  simp only [SaveData, LoadData]
  rw [loadLines_saveList cs hc, loadLines_saveList ss hs]

/-- Witness for C3 on a concrete roster. -/
theorem claimC3_witness :
    (∀ e ∈ (Model.mk ["Math".data] ["Ann Lee".data]).classes,
      e ≠ [] ∧ Trim e = e ∧ ('\n') ∉ e) ∧
    (∀ e ∈ (Model.mk ["Math".data] ["Ann Lee".data]).students,
      e ≠ [] ∧ Trim e = e ∧ ('\n') ∉ e) ∧
    LoadData (some (SaveData (Model.mk ["Math".data] ["Ann Lee".data])).1)
        (some (SaveData (Model.mk ["Math".data] ["Ann Lee".data])).2) =
      Model.mk ["Math".data] ["Ann Lee".data] :=
  ⟨by decide, by decide,
    claimC3 (Model.mk ["Math".data] ["Ann Lee".data]) (by decide) (by decide)⟩

/-! ### Helper lemmas about the renderer -/

/-- The in-range value of `titlePadLeft` at line 209 of the source. -/
def titlePadLeft (len : Nat) : Nat := (cardWidth - 2 - len) / 2

/-- The in-range value of `titlePadRight` at line 210 of the source. -/
def titlePadRight (len : Nat) : Nat := cardWidth - 2 - len - titlePadLeft len

theorem titleRow_eq (title : Str) (h : title.length ≤ cardWidth - 2) :
    titleRow title =
      some ('│' :: (sp (titlePadLeft title.length) ++ title ++
        sp (titlePadRight title.length) ++ ['│'])) := by
  simp [titleRow, checkedSub, h, titlePadLeft, titlePadRight]

theorem titleRow_none (title : Str) (h : cardWidth - 2 < title.length) :
    titleRow title = none := by
  simp [titleRow, checkedSub, Nat.not_le.mpr h]

theorem titleRow_length (title t : Str) (h : titleRow title = some t) :
    t.length = cardWidth := by
  by_cases hle : title.length ≤ cardWidth - 2
  · rw [titleRow_eq title hle] at h
    have h48 : title.length ≤ 48 := by simpa [cardWidth] using hle
    simp only [Option.some.injEq] at h
    subst h
    simp only [List.length_cons, List.length_append, sp, List.length_replicate,
      titlePadRight, titlePadLeft, cardWidth, List.length_nil]
    omega
  · rw [titleRow_none title (Nat.lt_of_not_le hle)] at h
    exact absurd h (by simp)

theorem gridBodyRow_eq_long (line : Str) (h : cardWidth - 3 < line.length) :
    gridBodyRow line =
      '│' :: ' ' :: ((line.take (cardWidth - 6) ++ ['.', '.', '.']) ++
        sp (cardWidth - 3 - (line.take (cardWidth - 6) ++ ['.', '.', '.']).length) ++
        ['│']) := by
  unfold gridBodyRow
  simp [h]

theorem gridBodyRow_eq_short (line : Str) (h : line.length ≤ cardWidth - 3) :
    gridBodyRow line =
      '│' :: ' ' :: (line ++ sp (cardWidth - 3 - line.length) ++ ['│']) := by
  unfold gridBodyRow
  simp [Nat.not_lt.mpr h]

theorem gridBodyRow_length (line : Str) : (gridBodyRow line).length = cardWidth := by
  by_cases h : cardWidth - 3 < line.length
  · have h47 : 47 < line.length := by simpa [cardWidth] using h
    rw [gridBodyRow_eq_long line h]
    simp only [List.length_cons, List.length_append, List.length_take, sp,
      List.length_replicate, List.length_nil, cardWidth]
    omega
  · have h47 : line.length ≤ 47 := by
      simp only [cardWidth] at h
      omega
    rw [gridBodyRow_eq_short line (by simpa [cardWidth] using h47)]
    simp only [List.length_cons, List.length_append, sp, List.length_replicate,
      List.length_nil, cardWidth]
    omega

theorem gridBodySlot_length (body : List Str) : (gridBodySlot body).length = 3 := by
  simp [gridBodySlot]

theorem gridBodySlot_mem_length (body : List Str) (r : Str)
    (h : r ∈ gridBodySlot body) : r.length = cardWidth := by
  unfold gridBodySlot at h
  simp only [List.mem_map, List.mem_range] at h
  obtain ⟨ln, _, hr⟩ := h
  cases hget : body.get? ln with
  | none => rw [hget] at hr; rw [← hr]; decide
  | some l => rw [hget] at hr; rw [← hr]; exact gridBodyRow_length l

theorem gridCardRows_eq (title : Str) (body : List Str)
    (h : title.length ≤ cardWidth - 2) :
    gridCardRows (title, body) =
      some ([topBorder,
             '│' :: (sp (titlePadLeft title.length) ++ title ++
               sp (titlePadRight title.length) ++ ['│']),
             blankRow] ++ gridBodySlot body ++ [bottomBorder]) := by
  simp [gridCardRows, titleRow_eq title h]

theorem gridCardRows_none (title : Str) (body : List Str)
    (h : cardWidth - 2 < title.length) :
    gridCardRows (title, body) = none := by
  simp [gridCardRows, titleRow_none title h]

theorem gridCardRows_length (c : Str × List Str) (rows : List Str)
    (h : gridCardRows c = some rows) : rows.length = 7 := by
  unfold gridCardRows at h
  cases ht : titleRow c.1 with
  | none => rw [ht] at h; exact absurd h (by simp)
  | some t =>
    rw [ht] at h
    simp only [Option.some.injEq] at h
    subst h
    simp [gridBodySlot_length]

/-! ### Claims about card dimensions, truncation, centering, safety -/

/-- C2: every card the grid renderer actually produces has exactly 7 rows
(top border, title row, blank interior row, three body-slot rows, bottom
border), and every row has printable width `cardWidth = 50`, escape sequences
ignored. -/
theorem claimC2 (title : Str) (body : List Str) (rows : List Str)
    (h : gridCardRows (title, body) = some rows) :
    rows.length = 7 ∧ ∀ r ∈ rows, r.length = cardWidth := by
  refine ⟨gridCardRows_length _ _ h, ?_⟩
  unfold gridCardRows at h
  cases ht : titleRow title with
  | none => rw [ht] at h; exact absurd h (by simp)
  | some t =>
    rw [ht] at h
    simp only [Option.some.injEq] at h
    subst h
    intro r hr
    simp only [List.mem_append, List.mem_cons, List.mem_singleton,
      List.not_mem_nil, or_false] at hr
    rcases hr with ((rfl | rfl | rfl) | hslot) | rfl
    · decide
    · exact titleRow_length title r ht
    · decide
    · exact gridBodySlot_mem_length body r hslot
    · decide

/-- Witness for C2 on a concrete card. -/
theorem claimC2_witness :
    gridCardRows ("Math".data, ["Manage and track your class activities.".data]) =
      some ((gridCardRows ("Math".data,
        ["Manage and track your class activities.".data])).getD []) ∧
    ((gridCardRows ("Math".data,
        ["Manage and track your class activities.".data])).getD []).length = 7 ∧
    ∀ r ∈ (gridCardRows ("Math".data,
        ["Manage and track your class activities.".data])).getD [],
      r.length = cardWidth := by
  have h : gridCardRows ("Math".data, ["Manage and track your class activities.".data]) =
      some ((gridCardRows ("Math".data,
        ["Manage and track your class activities.".data])).getD []) := by decide
  exact ⟨h, claimC2 "Math".data ["Manage and track your class activities.".data] _ h⟩

/-- C5: in the grid renderer, a body line strictly longer than
`cardWidth - 3 = 47` renders as exactly its first `cardWidth - 6 = 44`
characters followed by the 3-character ellipsis, filling exactly
`cardWidth - 3` visible columns with no further padding; a line of length at
most `cardWidth - 3` is rendered unmodified, right-padded with spaces to
`cardWidth - 3` columns. -/
theorem claimC5 (line : Str) :
    (cardWidth - 3 < line.length →
      gridBodyRow line =
        '│' :: ' ' :: ((line.take (cardWidth - 6) ++ ['.', '.', '.']) ++ ['│']) ∧
      (line.take (cardWidth - 6) ++ ['.', '.', '.']).length = cardWidth - 3) ∧
    (line.length ≤ cardWidth - 3 →
      gridBodyRow line =
        '│' :: ' ' :: (line ++ sp (cardWidth - 3 - line.length) ++ ['│'])) := by
  constructor
  · intro h
    have h47 : 47 < line.length := by simpa [cardWidth] using h
    have htk : (line.take (cardWidth - 6)).length = 44 := by
      simp only [List.length_take, cardWidth]
      omega
    have hlen : (line.take (cardWidth - 6) ++ ['.', '.', '.']).length = cardWidth - 3 := by
      simp only [List.length_append, List.length_take, List.length_cons,
        List.length_nil, cardWidth]
      omega
    refine ⟨?_, hlen⟩
    rw [gridBodyRow_eq_long line h, hlen]
    simp [sp, cardWidth]
  · intro h
    exact gridBodyRow_eq_short line h

/-- Witness for C5 on one over-long and one short body line. -/
theorem claimC5_witness :
    (cardWidth - 3 < (List.replicate 48 'b').length ∧
      gridBodyRow (List.replicate 48 'b') =
        '│' :: ' ' :: (((List.replicate 48 'b').take (cardWidth - 6) ++
          ['.', '.', '.']) ++ ['│'])) ∧
    ("hi".data.length ≤ cardWidth - 3 ∧
      gridBodyRow "hi".data =
        '│' :: ' ' :: ("hi".data ++ sp (cardWidth - 3 - "hi".data.length) ++ ['│'])) :=
  ⟨⟨by decide, ((claimC5 (List.replicate 48 'b')).1 (by decide)).1⟩,
   ⟨by decide, (claimC5 "hi".data).2 (by decide)⟩⟩

/-- C7: for a title of length at most `cardWidth - 2`, the title row is the
left border glyph, the left pad, the title, the right pad and the right
border glyph; the pads and the title length sum to `cardWidth - 2`, and when
that difference is odd the right pad is exactly one space longer than the
left pad. -/
theorem claimC7 (title : Str) (h : title.length ≤ cardWidth - 2) :
    titleRow title =
      some ('│' :: (sp (titlePadLeft title.length) ++ title ++
        sp (titlePadRight title.length) ++ ['│'])) ∧
    titlePadLeft title.length + title.length + titlePadRight title.length =
      cardWidth - 2 ∧
    ((cardWidth - 2 - title.length) % 2 = 1 →
      titlePadRight title.length = titlePadLeft title.length + 1) := by
  have h48 : title.length ≤ 48 := by simpa [cardWidth] using h
  refine ⟨titleRow_eq title h, ?_, ?_⟩
  · simp only [titlePadRight, titlePadLeft, cardWidth] at h48 ⊢
    omega
  · intro hodd
    simp only [titlePadRight, titlePadLeft, cardWidth] at hodd ⊢
    omega

/-- Witness for C7: the title `"Math"` gets a 22/22-space split. -/
theorem claimC7_witness :
    "Math".data.length ≤ cardWidth - 2 ∧
    titleRow "Math".data =
      some ('│' :: (sp (titlePadLeft "Math".data.length) ++ "Math".data ++
        sp (titlePadRight "Math".data.length) ++ ['│'])) ∧
    titlePadLeft "Math".data.length = 22 ∧
    titlePadRight "Math".data.length = 22 :=
  ⟨by decide, (claimC7 "Math".data (by decide)).1, by decide, by decide⟩

/-- C9: for a title of length at most `cardWidth - 2` all repeat counts are
in range (`checkedSub` succeeds) and rendering the card is well defined
(`isSome`), with the title reproduced in full, untruncated, in the title row;
for a longer title the unsigned padding subtraction underflows (`checkedSub`
fails, modelling the thrown `std::length_error`) and rendering produces
nothing. -/
theorem claimC9 (title : Str) (body : List Str) :
    (title.length ≤ cardWidth - 2 →
      (checkedSub (cardWidth - 2) title.length).isSome ∧
      (gridCardRows (title, body)).isSome ∧
      ∀ rows, gridCardRows (title, body) = some rows →
        rows.get? 1 = some ('│' :: (sp (titlePadLeft title.length) ++ title ++
          sp (titlePadRight title.length) ++ ['│']))) ∧
    (cardWidth - 2 < title.length →
      checkedSub (cardWidth - 2) title.length = none ∧
      gridCardRows (title, body) = none) := by
  constructor
  · intro h
    refine ⟨by simp [checkedSub, h], by simp [gridCardRows_eq title body h], ?_⟩
    intro rows hrows
    rw [gridCardRows_eq title body h] at hrows
    simp only [Option.some.injEq] at hrows
    subst hrows
    rfl
  · intro h
    exact ⟨by simp [checkedSub, Nat.not_le.mpr h], gridCardRows_none title body h⟩

/-- Witness for C9: a 4-character title renders; a 49-character title makes
the padding arithmetic underflow and the renderer fail. -/
theorem claimC9_witness :
    ("Math".data.length ≤ cardWidth - 2 ∧
      (gridCardRows ("Math".data, [])).isSome) ∧
    (cardWidth - 2 < (List.replicate 49 'a').length ∧
      gridCardRows (List.replicate 49 'a', []) = none) :=
  ⟨⟨by decide, ((claimC9 "Math".data []).1 (by decide)).2.1⟩,
   ⟨by decide, ((claimC9 (List.replicate 49 'a') []).2 (by decide)).2⟩⟩

/-! ### The grid layout (C6) -/

theorem range_map_getD {α : Type} (d : α) (r : List α) :
    (List.range r.length).map (fun k => r.getD k d) = r := by
  induction r with
  | nil => simp
  | cons a t ih =>
    rw [List.length_cons, List.range_succ_eq_map]
    simp only [List.map_cons, List.getD_cons_zero, List.map_map, Function.comp_def,
      List.getD_cons_succ]
    rw [ih]

theorem range_map_getD2 {α β : Type} (f : α → α → β) (d : α) (r1 : List α) :
    ∀ r2 : List α, r1.length = r2.length →
      (List.range r1.length).map (fun k => f (r1.getD k d) (r2.getD k d)) =
        List.zipWith f r1 r2 := by
  induction r1 with
  | nil => intro r2 h; simp
  | cons a t ih =>
    intro r2 h
    cases r2 with
    | nil => simp at h
    | cons b t2 =>
      rw [List.length_cons, List.range_succ_eq_map]
      simp only [List.map_cons, List.getD_cons_zero, List.map_map, Function.comp_def,
        List.getD_cons_succ, List.zipWith_cons_cons]
      rw [ih t2 (by simpa using h)]

theorem sideBySide_single (r : List Str) (h : r.length = 7) : sideBySide [r] = r := by
  unfold sideBySide
  simp only [List.map_cons, List.map_nil, joinRow]
  rw [← h]
  exact range_map_getD [] r

theorem sideBySide_pair (r1 r2 : List Str) (h1 : r1.length = 7) (h2 : r2.length = 7) :
    sideBySide [r1, r2] = List.zipWith (fun a b => a ++ sp 4 ++ b) r1 r2 := by
  unfold sideBySide
  simp only [List.map_cons, List.map_nil, joinRow]
  rw [← h1]
  exact range_map_getD2 (fun a b => a ++ sp 4 ++ b) [] r1 r2 (by omega)

/-- The grid layout exactly as the specification phrases it: cards taken two
at a time in input order; for a pair, the corresponding rows concatenated
side by side with the fixed 4-space gutter; each group closed by one empty
separator line (hence exactly one blank line between consecutive groups); a
trailing single card kept as its own single column with no synthesized
padding card. -/
def specGrid : List (Str × List Str) → List Str
  | [] => []
  | [c] => (gridCardRows c).getD [] ++ [[]]
  | c1 :: c2 :: rest =>
    List.zipWith (fun a b => a ++ sp 4 ++ b)
      ((gridCardRows c1).getD []) ((gridCardRows c2).getD [])
      ++ [[]] ++ specGrid rest

/-- C6: whenever every title fits the card, the grid renderer emits exactly
the layout described by `specGrid`: groups of two cards in input order, 7
side-by-side lines per group with the 4-space gutter, one blank separator
line closing each group, and a trailing single card rendered alone. -/
theorem claimC6 : ∀ cards : List (Str × List Str),
    (∀ c ∈ cards, c.1.length ≤ cardWidth - 2) →
    DisplayCardsGrid cards = some (specGrid cards)
  | [], _ => rfl
  | [c], h => by
    have hc := h c (List.mem_cons_self c [])
    have hr := gridCardRows_eq c.1 c.2 hc
    have hr7 : ((gridCardRows (c.1, c.2)).getD []).length = 7 := by
      rw [hr]
      exact gridCardRows_length (c.1, c.2) _ (by rw [hr]; simp [Option.getD_some])
    simp only [DisplayCardsGrid, specGrid]
    rw [show c = (c.1, c.2) from rfl, hr]
    simp only [Option.getD_some]
    rw [sideBySide_single _ (by simpa [hr, Option.getD_some] using hr7)]
  | c1 :: c2 :: rest, h => by
    have hc1 := h c1 (List.mem_cons_self c1 (c2 :: rest))
    have hc2 := h c2 (List.mem_cons_of_mem c1 (List.mem_cons_self c2 rest))
    have hr1 := gridCardRows_eq c1.1 c1.2 hc1
    have hr2 := gridCardRows_eq c2.1 c2.2 hc2
    have h71 : ([topBorder,
        '│' :: (sp (titlePadLeft c1.1.length) ++ c1.1 ++
          sp (titlePadRight c1.1.length) ++ ['│']), blankRow] ++
        gridBodySlot c1.2 ++ [bottomBorder]).length = 7 :=
      gridCardRows_length (c1.1, c1.2) _ hr1
    have h72 : ([topBorder,
        '│' :: (sp (titlePadLeft c2.1.length) ++ c2.1 ++
          sp (titlePadRight c2.1.length) ++ ['│']), blankRow] ++
        gridBodySlot c2.2 ++ [bottomBorder]).length = 7 :=
      gridCardRows_length (c2.1, c2.2) _ hr2
    have htail := claimC6 rest (fun c hcm => h c (List.mem_cons_of_mem c1 (List.mem_cons_of_mem c2 hcm)))
    simp only [DisplayCardsGrid, specGrid]
    rw [show c1 = (c1.1, c1.2) from rfl, show c2 = (c2.1, c2.2) from rfl, hr1, hr2, htail]
    simp only [Option.getD_some]
    rw [sideBySide_pair _ _ h71 h72]

/-- Witness for C6 on three concrete cards: one full two-card group followed
by a single-card group. -/
theorem claimC6_witness :
    (∀ c ∈ ([("Math".data, ["a".data]), ("Physics".data, ["b".data]),
        ("Chemistry".data, ["c".data])] : List (Str × List Str)),
      c.1.length ≤ cardWidth - 2) ∧
    DisplayCardsGrid [("Math".data, ["a".data]), ("Physics".data, ["b".data]),
        ("Chemistry".data, ["c".data])] =
      some (specGrid [("Math".data, ["a".data]), ("Physics".data, ["b".data]),
        ("Chemistry".data, ["c".data])]) :=
  ⟨by decide,
   claimC6 [("Math".data, ["a".data]), ("Physics".data, ["b".data]),
     ("Chemistry".data, ["c".data])] (by decide)⟩

/-! ### DisplayCard versus the grid (C10) -/

theorem gridBodyRow_eq_displayCardBodyRow (line : Str)
    (h : line.length ≤ cardWidth - 3) :
    gridBodyRow line = displayCardBodyRow line := by
  rw [gridBodyRow_eq_short line h]
  rfl

/-- C10, counterexample: with the short title `"Math"`, the two renderers
disagree, both for a single short body line (5 rows against 7: `DisplayCard`
does not fill the 3-row body slot) and for a 48-character body line
(`DisplayCard` does not truncate). -/
theorem claimC10_counterexample :
    ("Math".data.length ≤ cardWidth - 2 ∧
      DisplayCard "Math".data ["x".data] ≠
        gridCardRows ("Math".data, ["x".data])) ∧
    ("Math".data.length ≤ cardWidth - 2 ∧
      DisplayCard "Math".data [List.replicate 48 'b', "x".data, "y".data] ≠
        gridCardRows ("Math".data, [List.replicate 48 'b', "x".data, "y".data])) := by
  refine ⟨⟨by decide, by decide⟩, ⟨by decide, by decide⟩⟩

/-- C10, amended: the single-card renderer `DisplayCard` agrees with the
per-card row construction inside `DisplayCardsGrid` (visible rows, escape
sequences ignored) exactly on the inputs where their differing body handling
cannot show: title of length at most `cardWidth - 2`, a body of exactly 3
lines, and every body line of length at most `cardWidth - 3`.  In general
`DisplayCard` emits one untruncated row per supplied body line, while the
grid always emits a truncated 3-row body slot. -/
theorem claimC10 (title : Str) (body : List Str)
    (ht : title.length ≤ cardWidth - 2)
    (hb : body.length = 3)
    (hl : ∀ l ∈ body, l.length ≤ cardWidth - 3) :
    DisplayCard title body = gridCardRows (title, body) := by
  obtain ⟨l1, l2, l3, rfl⟩ : ∃ l1 l2 l3, body = [l1, l2, l3] := by
    match body, hb with
    | [l1, l2, l3], _ => exact ⟨l1, l2, l3, rfl⟩
  have h1 := hl l1 (by simp)
  have h2 := hl l2 (by simp)
  have h3 := hl l3 (by simp)
  rw [gridCardRows_eq title [l1, l2, l3] ht]
  have hslot : gridBodySlot [l1, l2, l3] =
      [displayCardBodyRow l1, displayCardBodyRow l2, displayCardBodyRow l3] := by
    have hrange : List.range 3 = [0, 1, 2] := rfl
    simp only [gridBodySlot, hrange, List.map_cons, List.map_nil, List.get?]
    rw [gridBodyRow_eq_displayCardBodyRow l1 h1,
        gridBodyRow_eq_displayCardBodyRow l2 h2,
        gridBodyRow_eq_displayCardBodyRow l3 h3]
  rw [hslot]
  have hpt : checkedSub (cardWidth - 2) title.length = some (cardWidth - 2 - title.length) := by
    simp [checkedSub, ht]
  have hpads : (cardWidth - 2 - title.length + 1) / 2 = titlePadRight title.length := by
    simp only [titlePadRight, titlePadLeft, cardWidth]
    omega
  simp only [DisplayCard, hpt, titlePadLeft, hpads, List.map_cons, List.map_nil]

/-- Witness for the amended C10 on a concrete card with a 3-line body. -/
theorem claimC10_witness :
    ("Math".data.length ≤ cardWidth - 2 ∧
      ([("a".data : Str), "b".data, "c".data] : List Str).length = 3 ∧
      ∀ l ∈ ([("a".data : Str), "b".data, "c".data] : List Str),
        l.length ≤ cardWidth - 3) ∧
    DisplayCard "Math".data ["a".data, "b".data, "c".data] =
      gridCardRows ("Math".data, ["a".data, "b".data, "c".data]) :=
  ⟨⟨by decide, by decide, by decide⟩,
   claimC10 "Math".data ["a".data, "b".data, "c".data]
     (by decide) (by decide) (by decide)⟩

end VClass
